import Mathlib

/- Formal model of the commission reconciliation core of the crm_worklows
   repository: src/commission_app/logic.py, src/commission_app/config.py,
   src/commission_app/ghl_client.py and src/ghl_client.py.  Python floats are
   modelled as exact rationals; Python float() string parsing is modelled on
   finite decimal forms (special values such as inf and nan, and underscore
   digit separators, are outside the model).  The remote client is modelled
   by a response function together with an explicit trace of issued write
   calls. -/

namespace CRM

/-- A JSON-like value carried by a custom field or a webhook payload: a
number, a string, null, or any other shape (list, object, boolean, ...); for
the last kind only its Python truthiness is retained, since the code only
ever branches on isinstance checks or truthiness before float() raises. -/
inductive Value where
  | vnum (q : ℚ)
  | vstr (s : String)
  | vnull
  | vother (truthyFlag : Bool)
  deriving DecidableEq

/-- The stored monetaryValue of an opportunity as typed by the data model of
the spec (numeric, string, or absent/null; dict.get returns None for both
absent and null). -/
inductive MonVal where
  | mnum (q : ℚ)
  | mstr (s : String)
  | mnull
  deriving DecidableEq

/-- One entry of the customFields collection; id, key and name are read with
dict.get with default empty string in the code, modelled as optional. -/
structure Field where
  id : Option String := none
  key : Option String := none
  name : Option String := none
  value : Value := Value.vnull
  deriving DecidableEq

/-- An opportunity record, restricted to the fields the reconciliation logic
reads. -/
structure Opportunity where
  id : Option String := none
  pipelineId : Option String := none
  monetaryValue : MonVal := MonVal.mnull
  customFields : List Field := []
  deriving DecidableEq

/-- One invocation of client.update_opportunity_value as recorded in the
effect trace. -/
structure WriteCall where
  pipelineId : Option String
  oppId : Option String
  value : ℚ
  deriving DecidableEq

/-- An HTTP response to the PUT issued by the client; the transport layer is
abstracted to the status code and body. -/
structure HttpResponse where
  status : ℕ
  body : String := ""
  deriving DecidableEq

/-- COMMISSION_RATE from src/commission_app/config.py (0.015). -/
def COMMISSION_RATE : ℚ := 15 / 1000

/-- Default LOAN_AMOUNT_FIELD_KEY from src/commission_app/config.py. -/
def LOAN_AMOUNT_FIELD_KEY : String := "loan_with_mipfunding_fee"

/-- Whitespace characters stripped by Python str.strip and float(). -/
def isPyWs (c : Char) : Bool :=
  c = ' ' || c = '\t' || c = '\n' || c = '\r' || c = '\x0b' || c = '\x0c'

def trimWs (l : List Char) : List Char :=
  ((l.dropWhile isPyWs).reverse.dropWhile isPyWs).reverse

def digitsVal (l : List Char) : ℕ :=
  l.foldl (fun n c => 10 * n + (c.toNat - 48)) 0

/-- The syntactic pieces of a decimal literal accepted by Python float():
sign, integer digits, fractional digits with their count, and exponent. -/
structure NumParts where
  neg : Bool
  intPart : ℕ
  fracPart : ℕ
  fracLen : ℕ
  expPart : ℤ
  deriving DecidableEq

/-- Exponent suffix of a Python float literal; the empty suffix is exponent
zero. -/
def parseExp : List Char → Option ℤ
  | [] => some 0
  | c :: rest =>
    if c = 'e' ∨ c = 'E' then
      match rest with
      | '+' :: ds => if ds ≠ [] ∧ ds.all Char.isDigit then some ((digitsVal ds : ℤ)) else none
      | '-' :: ds => if ds ≠ [] ∧ ds.all Char.isDigit then some (-(digitsVal ds : ℤ)) else none
      | ds => if ds ≠ [] ∧ ds.all Char.isDigit then some ((digitsVal ds : ℤ)) else none
    else none

/-- Unsigned decimal mantissa with optional fraction and exponent. -/
def parseUnsigned (l : List Char) : Option NumParts :=
  match l.dropWhile Char.isDigit with
  | '.' :: rest2 =>
    if l.takeWhile Char.isDigit = [] ∧ rest2.takeWhile Char.isDigit = [] then none
    else
      match parseExp (rest2.dropWhile Char.isDigit) with
      | some e =>
        some ⟨false, digitsVal (l.takeWhile Char.isDigit),
          digitsVal (rest2.takeWhile Char.isDigit), (rest2.takeWhile Char.isDigit).length, e⟩
      | none => none
  | rest1 =>
    if l.takeWhile Char.isDigit = [] then none
    else
      match parseExp rest1 with
      | some e => some ⟨false, digitsVal (l.takeWhile Char.isDigit), 0, 0, e⟩
      | none => none

/-- Sign handling of a Python float literal after whitespace trimming. -/
def parseParts (l : List Char) : Option NumParts :=
  match trimWs l with
  | '+' :: rest => parseUnsigned rest
  | '-' :: rest => (parseUnsigned rest).map (fun p => { p with neg := true })
  | rest => parseUnsigned rest

/-- The rational value denoted by parsed literal pieces. -/
def partsToRat (p : NumParts) : ℚ :=
  (if p.neg then -1 else 1) * ((p.intPart : ℚ) + (p.fracPart : ℚ) / (10 : ℚ) ^ p.fracLen)
    * (10 : ℚ) ^ p.expPart

/-- Model of Python float(str) on finite decimal forms; none models a
ValueError. -/
def pyFloat (s : String) : Option ℚ := (parseParts s.data).map partsToRat

/-- Removal of dollar signs and commas as done before parsing in
get_loan_amount and in the payload branch of process_single_opportunity; the
trailing strip is subsumed by the whitespace trimming inside pyFloat. -/
def cleanCurrency (s : String) : String :=
  ⟨s.data.filter (fun c => (c != '$') && (c != ','))⟩

/-- Python one-pass replacement of a double underscore by a single one,
scanning left to right. -/
def collapseDoubleUnderscore : List Char → List Char
  | [] => []
  | [c] => [c]
  | c1 :: c2 :: rest =>
    if c1 = '_' ∧ c2 = '_' then '_' :: collapseDoubleUnderscore rest
    else c1 :: collapseDoubleUnderscore (c2 :: rest)

def pyLower (l : List Char) : List Char := l.map Char.toLower

/-- The name normalization of get_loan_amount: lower-case, replace spaces by
underscores, delete slashes, then collapse double underscores once. -/
def codeNormChars (l : List Char) : List Char :=
  collapseDoubleUnderscore
    (((pyLower l).map (fun c => if c = ' ' then '_' else c)).filter (fun c => c != '/'))

def codeNormName (s : String) : String := ⟨codeNormChars s.data⟩

def pyLowerStr (s : String) : String := ⟨pyLower s.data⟩

def stripUnderscores (s : String) : String := ⟨s.data.filter (fun c => c != '_')⟩

/-- The field-matching test of get_loan_amount: id or key exactly, or the
normalized name against the lower-cased target key, or the same with all
underscores stripped from both sides. -/
def matchesTarget (key : String) (f : Field) : Bool :=
  decide (f.id.getD ("") = key
    ∨ f.key.getD ("") = key
    ∨ codeNormName (f.name.getD ("")) = pyLowerStr key
    ∨ stripUnderscores (codeNormName (f.name.getD (""))) = stripUnderscores (pyLowerStr key))

/-- The scanning loop of get_loan_amount over the customFields collection: a
matching field with a string value is parsed after currency cleaning (0.0 on
failure), a numeric value is used as is, and any other value falls through to
the remaining fields; no match at all yields 0.0. -/
def extractLoanAmount (key : String) : List Field → ℚ
  | [] => 0
  | f :: rest =>
    if matchesTarget key f then
      match f.value with
      | Value.vstr s => (pyFloat (cleanCurrency s)).getD 0
      | Value.vnum q => q
      | _ => extractLoanAmount key rest
    else extractLoanAmount key rest

def get_loan_amount (key : String) (opp : Opportunity) : ℚ :=
  extractLoanAmount key opp.customFields

/-- Round half to even at integer precision, the rounding of Python round. -/
def roundHalfEven (q : ℚ) : ℤ :=
  if q - (⌊q⌋ : ℚ) < 1 / 2 then ⌊q⌋
  else if 1 / 2 < q - (⌊q⌋ : ℚ) then ⌊q⌋ + 1
  else if ⌊q⌋ % 2 = 0 then ⌊q⌋ else ⌊q⌋ + 1

/-- Python round(x, 2). -/
def pyRound2 (q : ℚ) : ℚ := ((roundHalfEven (q * 100) : ℤ) : ℚ) / 100

/-- calculate_commission of logic.py with the configured rate made an
explicit parameter. -/
def calculate_commission (rate loan : ℚ) : ℚ := pyRound2 (loan * rate)

/-- The current stored value as coerced by should_update: None becomes 0.0,
numbers pass through, float(string) with a ValueError caught to 0.0. -/
def monCurrent : MonVal → ℚ
  | MonVal.mnull => 0
  | MonVal.mnum q => q
  | MonVal.mstr s => (pyFloat s).getD 0

/-- should_update of logic.py: true when the stored value differs from the
calculated one by more than the fixed 0.01 tolerance. -/
def should_update (opp : Opportunity) (calculated : ℚ) : Bool :=
  decide (1 / 100 < |monCurrent opp.monetaryValue - calculated|)

/-- Python truthiness of a payload value. -/
def truthy : Value → Bool
  | Value.vnum q => decide (q ≠ 0)
  | Value.vstr s => decide (s ≠ "")
  | Value.vnull => false
  | Value.vother b => b

/-- The payload branch of process_single_opportunity: a falsy payload is not
consulted (amount 0.0); a truthy string is cleaned and parsed with ValueError
caught to 0.0; a truthy number passes through; none models an uncaught
TypeError from float() on a value that is neither string nor number. -/
def overrideLoan (payload : Value) : Option ℚ :=
  if truthy payload then
    match payload with
    | Value.vstr s => some ((pyFloat (cleanCurrency s)).getD 0)
    | Value.vnum q => some q
    | Value.vnull => none
    | Value.vother _ => none
  else some 0

/-- Amount resolution of process_single_opportunity: the payload override is
used when it resolves to a positive value, otherwise extraction from the
custom fields of the record. -/
def resolveLoan (key : String) (payload : Value) (opp : Opportunity) : Option ℚ :=
  (overrideLoan payload).map (fun l0 => if l0 ≤ 0 then get_loan_amount key opp else l0)

/-- One iteration of the loop body of process_opportunities: skip a record
with no positive resolved amount, otherwise compare with tolerance and issue
the write when needed, counting the outcome against the accumulated tail. -/
def procStep (rate : ℚ) (key : String)
    (upd : Option String → Option String → ℚ → Bool)
    (opp : Opportunity) (tail : ℕ × ℕ × List WriteCall) : ℕ × ℕ × List WriteCall :=
  if get_loan_amount key opp ≤ 0 then tail
  else if should_update opp (calculate_commission rate (get_loan_amount key opp)) then
    if upd opp.pipelineId opp.id (calculate_commission rate (get_loan_amount key opp)) then
      (tail.1 + 1, tail.2.1,
        ⟨opp.pipelineId, opp.id, calculate_commission rate (get_loan_amount key opp)⟩ :: tail.2.2)
    else
      (tail.1, tail.2.1 + 1,
        ⟨opp.pipelineId, opp.id, calculate_commission rate (get_loan_amount key opp)⟩ :: tail.2.2)
  else tail

/-- process_opportunities of logic.py. The client write is modelled by the
response function upd; the result carries the updated count, the error count
and the trace of issued write calls in order. -/
def process_opportunities (rate : ℚ) (key : String)
    (upd : Option String → Option String → ℚ → Bool) :
    List Opportunity → ℕ × ℕ × List WriteCall
  | [] => (0, 0, [])
  | opp :: rest => procStep rate key upd opp (process_opportunities rate key upd rest)

/-- Abstraction of the interpreter message of the TypeError raised by float()
on an unsupported operand, as rendered by the outer exception handler. -/
def typeErrorMsg : String := "float() argument must be a string or a number"

/-- process_single_opportunity of logic.py. getOpp is the result of
client.get_opportunity; the result carries the (success, message) pair and
the trace of issued write calls. -/
def process_single_opportunity (rate : ℚ) (key : String)
    (getOpp : Option Opportunity)
    (upd : Option String → Option String → ℚ → Bool)
    (oppId : String) (payload : Value) :
    (Bool × String) × List WriteCall :=
  match getOpp with
  | none => ((false, "Opportunity " ++ oppId ++ " not found."), [])
  | some opp =>
    match resolveLoan key payload opp with
    | none => ((false, "Error: " ++ typeErrorMsg), [])
    | some loan =>
      if loan ≤ 0 then
        ((false, "Skipped: No valid Loan Amount (Found: " ++ toString loan ++ ")"), [])
      else
        if should_update opp (calculate_commission rate loan) then
          if upd opp.pipelineId oppId (calculate_commission rate loan) then
            ((true, "Updated successfully."),
              [⟨opp.pipelineId, some oppId, calculate_commission rate loan⟩])
          else
            ((false, "Failed to update API."),
              [⟨opp.pipelineId, some oppId, calculate_commission rate loan⟩])
        else ((true, "No update needed (Value already correct)."), [])

/-- The effective update_opportunity_value of src/commission_app/ghl_client.py
(its second definition, which shadows the earlier one): the argument is none
when the PUT raises a transport exception and some response otherwise; the
status code of a received response is never inspected. -/
def update_opportunity_value : Option HttpResponse → Bool
  | none => false
  | some _ => true

/-- update_opportunity_value of the root module src/ghl_client.py, which calls
raise_for_status, so a 4xx or 5xx response raises and is caught to False. -/
def update_opportunity_value_root : Option HttpResponse → Bool
  | none => false
  | some r => decide (r.status < 400)

/-- Claim-side normalization of a field name, following the words of the
specification: lower-case, then spaces, slashes and double underscores
replaced by single underscores (the code deletes slashes instead). -/
def claimNormChars (l : List Char) : List Char :=
  collapseDoubleUnderscore ((pyLower l).map (fun c => if c = ' ' ∨ c = '/' then '_' else c))

def claimNormName (s : String) : String := ⟨claimNormChars s.data⟩

/-- The matching policy exactly as worded in the claim: exact id, exact key,
claim-normalized name against the normalized target key, or the same with all
underscores stripped from both sides. -/
def specMatchClaim (key : String) (f : Field) : Prop :=
  f.id.getD ("") = key
    ∨ f.key.getD ("") = key
    ∨ claimNormName (f.name.getD ("")) = pyLowerStr key
    ∨ stripUnderscores (claimNormName (f.name.getD (""))) = stripUnderscores (pyLowerStr key)

/-- Records wanting a write in a batch pass: positive resolved amount and a
stored value outside tolerance of the target. -/
def wantsWrite (rate : ℚ) (key : String) (opp : Opportunity) : Bool :=
  decide (0 < get_loan_amount key opp) &&
    should_update opp (calculate_commission rate (get_loan_amount key opp))

/-- The write call a batch pass issues for a record wanting one. -/
def plannedCall (rate : ℚ) (key : String) (opp : Opportunity) : WriteCall :=
  ⟨opp.pipelineId, opp.id, calculate_commission rate (get_loan_amount key opp)⟩

/-- First record of the end-to-end batch scenario: amount 100000, stored 500
(needs an update to 1000 at rate 0.01). -/
def scenarioOpp1 : Opportunity :=
  { id := some ("opp1"), pipelineId := some ("pip1"), monetaryValue := MonVal.mnum 500,
    customFields := [{ id := some LOAN_AMOUNT_FIELD_KEY, value := Value.vnum 100000 }] }

/-- Second record of the batch scenario: amount 250000, stored 2500 (already
correct at rate 0.01). -/
def scenarioOpp2 : Opportunity :=
  { id := some ("opp2"), pipelineId := some ("pip1"), monetaryValue := MonVal.mnum 2500,
    customFields := [{ id := some LOAN_AMOUNT_FIELD_KEY, value := Value.vnum 250000 }] }

/-- Third record of the batch scenario: no loan field at all (skipped). -/
def scenarioOpp3 : Opportunity :=
  { id := some ("opp3"), pipelineId := some ("pip1"), monetaryValue := MonVal.mnum 0,
    customFields := [] }

/-- The three records of the end-to-end batch scenario of the specification
(also the fixture of test_process_opportunities in test_logic.py). -/
def scenarioOpps : List Opportunity := [scenarioOpp1, scenarioOpp2, scenarioOpp3]

/-- A record with a null stored monetary value and no custom fields. -/
def oppNull : Opportunity := {}

/-- A record whose loan custom field says 50000. -/
def opp50k : Opportunity :=
  { customFields := [{ id := some LOAN_AMOUNT_FIELD_KEY, value := Value.vnum 50000 }] }

/-- A record whose loan custom field says 100000. -/
def oppLoan100k : Opportunity :=
  { customFields := [{ id := some LOAN_AMOUNT_FIELD_KEY, value := Value.vnum 100000 }] }

/-- A field matching by name only, carrying a null value. -/
def cfNullMatch : Field := { name := some ("Loan Amount"), value := Value.vnull }

/-- A field matching by id, carrying the numeric value 50000. -/
def cfNumMatch : Field := { id := some ("loan_amount"), value := Value.vnum 50000 }

theorem roundHalfEven_intCast (n : ℤ) : roundHalfEven ((n : ℤ) : ℚ) = n := by
  simp [roundHalfEven, Int.floor_intCast]

theorem pyRound2_of_int (q : ℚ) (n : ℤ) (h : q * 100 = (n : ℚ)) :
    pyRound2 q = (n : ℚ) / 100 := by
  rw [pyRound2, h, roundHalfEven_intCast]

theorem calculate_commission_of_int (rate loan : ℚ) (n : ℤ)
    (h : loan * rate * 100 = (n : ℚ)) :
    calculate_commission rate loan = (n : ℚ) / 100 := by
  rw [calculate_commission, pyRound2_of_int (loan * rate) n h]

theorem should_update_iff (opp : Opportunity) (c : ℚ) :
    should_update opp c = true ↔ 1 / 100 < |monCurrent opp.monetaryValue - c| := by
  simp [should_update]

/-- Claim C4: should_update returns true exactly when the stored value,
coerced with missing/null and unparseable text treated as 0.0, differs from
the target by more than 0.01; in particular a null stored value against
target 1000.0 yields true. -/
theorem should_update_iff_tolerance (opp : Opportunity) (t : ℚ) :
    (opp.monetaryValue = MonVal.mnull → (should_update opp t = true ↔ 1 / 100 < |0 - t|))
    ∧ (∀ q : ℚ, opp.monetaryValue = MonVal.mnum q →
        (should_update opp t = true ↔ 1 / 100 < |q - t|))
    ∧ (∀ s : String, opp.monetaryValue = MonVal.mstr s → pyFloat s = none →
        (should_update opp t = true ↔ 1 / 100 < |0 - t|))
    ∧ (∀ s : String, ∀ q : ℚ, opp.monetaryValue = MonVal.mstr s → pyFloat s = some q →
        (should_update opp t = true ↔ 1 / 100 < |q - t|))
    ∧ should_update oppNull 1000 = true := by
  refine ⟨?_, ?_, ?_, ?_, ?_⟩
  · intro h
    rw [should_update_iff, h]
    rfl
  · intro q h
    rw [should_update_iff, h]
    rfl
  · intro s h hp
    rw [should_update_iff, h]
    simp [monCurrent, hp]
  · intro s q h hp
    rw [should_update_iff, h]
    simp [monCurrent, hp]
  · refine (should_update_iff oppNull 1000).mpr ?_
    rw [show monCurrent oppNull.monetaryValue = 0 from rfl]
    norm_num

/-- Witness for C4: the null stored value case at target 1000. -/
theorem should_update_iff_tolerance_witness :
    should_update oppNull 1000 = true ↔ 1 / 100 < |(0 : ℚ) - 1000| :=
  (should_update_iff_tolerance oppNull 1000).1 rfl

theorem filter_collapseDoubleUnderscore (l : List Char) :
    (collapseDoubleUnderscore l).filter (fun c => c != '_')
      = l.filter (fun c => c != '_') := by
  induction l using collapseDoubleUnderscore.induct with
  | case1 => rfl
  | case2 c => rfl
  | case3 c1 c2 rest h ih =>
    obtain ⟨h1, h2⟩ := h
    subst h1
    subst h2
    simp [collapseDoubleUnderscore, List.filter, ih]
  | case4 c1 c2 rest h ih =>
    rw [collapseDoubleUnderscore, if_neg h]
    cases hc : (c1 != '_') <;> simp [List.filter, hc, ih]

theorem map_space_slash_decomp (l : List Char) :
    l.map (fun c => if c = ' ' ∨ c = '/' then '_' else c)
      = (l.map (fun c => if c = ' ' then '_' else c)).map
          (fun c => if c = '/' then '_' else c) := by
  induction l with
  | nil => rfl
  | cons c rest ih =>
    by_cases h1 : c = ' '
    · subst h1
      simp [ih]
    · by_cases h2 : c = '/'
      · subst h2
        simp [ih]
      · simp [h1, h2, ih]

theorem filter_underscore_map_slash (m : List Char) :
    (m.map (fun c => if c = '/' then '_' else c)).filter (fun c => c != '_')
      = (m.filter (fun c => c != '/')).filter (fun c => c != '_') := by
  induction m with
  | nil => rfl
  | cons c rest ih =>
    by_cases h1 : c = '/'
    · subst h1
      simp [List.filter, ih]
    · by_cases h2 : c = '_'
      · subst h2
        simp [List.filter, ih]
      · simp [-List.filter_filter, h1, h2, ih]

/-- Stripping all underscores erases the difference between the claim-side
normalization (slash becomes underscore) and the code-side one (slash is
deleted). -/
theorem stripUnderscores_claimNorm_eq (s : String) :
    stripUnderscores (claimNormName s) = stripUnderscores (codeNormName s) := by
  unfold stripUnderscores claimNormName codeNormName claimNormChars codeNormChars
  congr 1
  rw [filter_collapseDoubleUnderscore, filter_collapseDoubleUnderscore,
    map_space_slash_decomp, filter_underscore_map_slash]

/-- The code-side matching test coincides extensionally with the claim-side
policy: the two name normalizations differ only on slashes, and any
difference is absorbed by the underscore-stripped fourth clause. -/
theorem matchesTarget_iff_claim (key : String) (f : Field) :
    matchesTarget key f = true ↔ specMatchClaim key f := by
  unfold matchesTarget specMatchClaim
  rw [decide_eq_true_eq]
  constructor
  · rintro (h | h | h | h)
    · exact Or.inl h
    · exact Or.inr (Or.inl h)
    · refine Or.inr (Or.inr (Or.inr ?_))
      rw [stripUnderscores_claimNorm_eq, h]
    · refine Or.inr (Or.inr (Or.inr ?_))
      rw [stripUnderscores_claimNorm_eq]
      exact h
  · rintro (h | h | h | h)
    · exact Or.inl h
    · exact Or.inr (Or.inl h)
    · refine Or.inr (Or.inr (Or.inr ?_))
      rw [← stripUnderscores_claimNorm_eq, h]
    · refine Or.inr (Or.inr (Or.inr ?_))
      rw [← stripUnderscores_claimNorm_eq]
      exact h

theorem extract_cons_of_not_match (key : String) (f : Field) (fs : List Field)
    (h : matchesTarget key f = false) :
    extractLoanAmount key (f :: fs) = extractLoanAmount key fs := by
  simp [extractLoanAmount, h]

theorem extract_cons_of_num (key : String) (f : Field) (fs : List Field) (q : ℚ)
    (h : matchesTarget key f = true) (hv : f.value = Value.vnum q) :
    extractLoanAmount key (f :: fs) = q := by
  simp [extractLoanAmount, h, hv]

theorem extract_cons_of_str (key : String) (f : Field) (fs : List Field) (s : String)
    (h : matchesTarget key f = true) (hv : f.value = Value.vstr s) :
    extractLoanAmount key (f :: fs) = (pyFloat (cleanCurrency s)).getD 0 := by
  simp [extractLoanAmount, h, hv]

theorem extract_cons_of_null (key : String) (f : Field) (fs : List Field)
    (hv : f.value = Value.vnull) :
    extractLoanAmount key (f :: fs) = extractLoanAmount key fs := by
  cases h : matchesTarget key f <;> simp [extractLoanAmount, h, hv]

theorem extract_cons_of_other (key : String) (f : Field) (fs : List Field) (b : Bool)
    (hv : f.value = Value.vother b) :
    extractLoanAmount key (f :: fs) = extractLoanAmount key fs := by
  cases h : matchesTarget key f <;> simp [extractLoanAmount, h, hv]

/-- Counterexample for C6 as stated: the first matching field does not always
determine the outcome. With a first field matching by name but carrying a
null value and a second field matching by id with value 50000, extraction
returns 50000, while the first field alone yields 0.0. -/
theorem first_match_wins_refuted :
    ¬ (∀ (key : String) (f : Field) (fs : List Field),
        matchesTarget key f = true →
        extractLoanAmount key (f :: fs) = extractLoanAmount key [f]) := by
  intro hall
  have h := hall ("loan_amount") cfNullMatch [cfNumMatch] (by decide)
  rw [show extractLoanAmount ("loan_amount") [cfNullMatch, cfNumMatch] = 50000 from by decide,
    show extractLoanAmount ("loan_amount") [cfNullMatch] = 0 from by decide] at h
  exact absurd h (by norm_num)

/-- Claim C6 (amended): fields are tried in collection order and a field
matches exactly under the four clauses of the claim (exact id, exact key,
normalized name, underscore-stripped normalized forms); the first matching
field whose value is a string or a number wins, while a non-matching field
passes the scan on; a field named Loan Amount matches target key
loan_amount. -/
theorem matching_policy_amended (key : String) (f : Field) (fs : List Field) :
    (matchesTarget key f = true ↔ specMatchClaim key f)
    ∧ (matchesTarget key f = false →
        extractLoanAmount key (f :: fs) = extractLoanAmount key fs)
    ∧ (∀ q : ℚ, matchesTarget key f = true → f.value = Value.vnum q →
        extractLoanAmount key (f :: fs) = q)
    ∧ (∀ s : String, matchesTarget key f = true → f.value = Value.vstr s →
        extractLoanAmount key (f :: fs) = (pyFloat (cleanCurrency s)).getD 0)
    ∧ matchesTarget ("loan_amount") { name := some ("Loan Amount") } = true :=
  ⟨matchesTarget_iff_claim key f,
   extract_cons_of_not_match key f fs,
   fun q h hv => extract_cons_of_num key f fs q h hv,
   fun s h hv => extract_cons_of_str key f fs s h hv,
   by decide⟩

/-- Witness for the amended C6: the numeric first-match clause evaluated on a
concrete field. -/
theorem matching_policy_amended_witness :
    extractLoanAmount ("loan_amount") [cfNumMatch] = 50000 :=
  (matching_policy_amended ("loan_amount") cfNumMatch []).2.2.1 50000 (by decide) rfl

/-- Claim C7: a matched numeric value is used as is; a matched string value
yields exactly the cleaned numeric parse (dollar signs, commas and
whitespace stripped), with parse failure yielding 0.0 instead of an
exception (the model is total by construction); the example string parses to
150000.50. -/
theorem matched_value_parsing (key : String) (f : Field) (fs : List Field) :
    (∀ q : ℚ, matchesTarget key f = true → f.value = Value.vnum q →
        extractLoanAmount key (f :: fs) = q)
    ∧ (∀ s : String, matchesTarget key f = true → f.value = Value.vstr s →
        extractLoanAmount key (f :: fs) = (pyFloat (cleanCurrency s)).getD 0)
    ∧ (∀ s : String, pyFloat (cleanCurrency s) = none →
        matchesTarget key f = true → f.value = Value.vstr s →
        extractLoanAmount key (f :: fs) = 0)
    ∧ pyFloat (cleanCurrency ("$150,000.50")) = some (150000.50 : ℚ)
    ∧ extractLoanAmount LOAN_AMOUNT_FIELD_KEY
        [{ id := some LOAN_AMOUNT_FIELD_KEY, value := Value.vstr ("$150,000.50") }]
        = (150000.50 : ℚ) := by
  have hp : pyFloat (cleanCurrency ("$150,000.50")) = some (150000.50 : ℚ) := by
    rw [pyFloat,
      show parseParts (cleanCurrency ("$150,000.50")).data = some ⟨false, 150000, 50, 2, 0⟩
        from by decide]
    simp [partsToRat]
    norm_num
  refine ⟨fun q h hv => extract_cons_of_num key f fs q h hv,
    fun s h hv => extract_cons_of_str key f fs s h hv,
    ?_, hp, ?_⟩
  · intro s hn h hv
    rw [extract_cons_of_str key f fs s h hv, hn]
    rfl
  · rw [extract_cons_of_str LOAN_AMOUNT_FIELD_KEY _ [] ("$150,000.50") (by decide) rfl, hp]
    rfl

/-- Witness for C7: the string-parsing clause evaluated on a concrete field
with a currency-formatted value. -/
theorem matched_value_parsing_witness :
    extractLoanAmount ("k") [{ id := some ("k"), value := Value.vstr ("$1,000") }]
      = (pyFloat (cleanCurrency ("$1,000"))).getD 0 :=
  (matched_value_parsing ("k")
    { id := some ("k"), value := Value.vstr ("$1,000") } []).2.1 ("$1,000") (by decide) rfl

/-- Claim C10: extraction is total over arbitrary field value shapes (all of
which the Value type models), and a matching field whose value is absent or
of a non-string, non-numeric type does not terminate the scan: later fields
are still examined and a later matching field can supply the amount. -/
theorem extractor_scan_continues (key : String) (f : Field) (fs : List Field) (b : Bool) :
    (f.value = Value.vnull → extractLoanAmount key (f :: fs) = extractLoanAmount key fs)
    ∧ (f.value = Value.vother b → extractLoanAmount key (f :: fs) = extractLoanAmount key fs)
    ∧ matchesTarget ("loan_amount") cfNullMatch = true
    ∧ extractLoanAmount ("loan_amount") [cfNullMatch, cfNumMatch] = 50000 :=
  ⟨fun hv => extract_cons_of_null key f fs hv,
   fun hv => extract_cons_of_other key f fs b hv,
   by decide,
   by decide⟩

/-- Witness for C10: a matching null-valued field passes the scan to a later
matching field. -/
theorem extractor_scan_continues_witness :
    extractLoanAmount ("loan_amount") (cfNullMatch :: [cfNumMatch])
      = extractLoanAmount ("loan_amount") [cfNumMatch] :=
  (extractor_scan_continues ("loan_amount") cfNullMatch [cfNumMatch] false).1 rfl

/-- The batch pass is the fold of its loop body: counts are the sizes of the
write-wanting records split by the client response, and the trace lists one
planned call per write-wanting record, in collection order. -/
theorem process_opportunities_eq (rate : ℚ) (key : String)
    (upd : Option String → Option String → ℚ → Bool) (opps : List Opportunity) :
    process_opportunities rate key upd opps =
      (((opps.filter (fun o => wantsWrite rate key o)).filter
          (fun o => upd o.pipelineId o.id
            (calculate_commission rate (get_loan_amount key o)))).length,
       ((opps.filter (fun o => wantsWrite rate key o)).filter
          (fun o => !(upd o.pipelineId o.id
            (calculate_commission rate (get_loan_amount key o))))).length,
       (opps.filter (fun o => wantsWrite rate key o)).map (fun o => plannedCall rate key o)) := by
  induction opps with
  | nil => rfl
  | cons o rest ih =>
    rw [process_opportunities, ih, procStep]
    by_cases h1 : get_loan_amount key o ≤ 0
    · have hw : wantsWrite rate key o = false := by
        simp [wantsWrite, not_lt.mpr h1]
      simp [h1, hw, List.filter]
    · have h0 : 0 < get_loan_amount key o := not_le.mp h1
      by_cases h2 : should_update o (calculate_commission rate (get_loan_amount key o)) = true
      · have hw : wantsWrite rate key o = true := by simp [wantsWrite, h0, h2]
        by_cases h3 : upd o.pipelineId o.id (calculate_commission rate (get_loan_amount key o)) = true
        · simp [h1, h2, h3, hw, List.filter, plannedCall]
        · simp [h1, h2, h3, hw, List.filter, plannedCall]
      · have hw : wantsWrite rate key o = false := by simp [wantsWrite, h2]
        simp [h1, h2, hw, List.filter]

/-- Evaluation of the three-record scenario at rate 0.01 with a client that
accepts every write. -/
theorem scenario_eval :
    process_opportunities (1 / 100) LOAN_AMOUNT_FIELD_KEY (fun _ _ _ => true) scenarioOpps
      = (1, 0, [⟨some ("pip1"), some ("opp1"), 1000⟩]) := by
  have e1 : get_loan_amount LOAN_AMOUNT_FIELD_KEY scenarioOpp1 = 100000 := by decide
  have e2 : get_loan_amount LOAN_AMOUNT_FIELD_KEY scenarioOpp2 = 250000 := by decide
  have e3 : get_loan_amount LOAN_AMOUNT_FIELD_KEY scenarioOpp3 = 0 := by decide
  have c1 : calculate_commission (1 / 100) 100000 = 1000 := by
    rw [calculate_commission_of_int (1 / 100) 100000 100000 (by norm_num)]
    norm_num
  have c2 : calculate_commission (1 / 100) 250000 = 2500 := by
    rw [calculate_commission_of_int (1 / 100) 250000 250000 (by norm_num)]
    norm_num
  have s1 : should_update scenarioOpp1 1000 = true := by
    refine (should_update_iff scenarioOpp1 1000).mpr ?_
    rw [show monCurrent scenarioOpp1.monetaryValue = 500 from rfl]
    norm_num
  have s2 : should_update scenarioOpp2 2500 = false := by
    refine (Bool.eq_false_iff).mpr ?_
    intro hcon
    have hx := (should_update_iff scenarioOpp2 2500).mp hcon
    rw [show monCurrent scenarioOpp2.monetaryValue = 2500 from rfl] at hx
    norm_num at hx
  have n1 : ¬ ((100000 : ℚ) ≤ 0) := by norm_num
  have n2 : ¬ ((250000 : ℚ) ≤ 0) := by norm_num
  have p3 : procStep (1 / 100) LOAN_AMOUNT_FIELD_KEY (fun _ _ _ => true) scenarioOpp3 (0, 0, [])
      = (0, 0, []) := by
    rw [procStep, e3, if_pos le_rfl]
  have p2 : procStep (1 / 100) LOAN_AMOUNT_FIELD_KEY (fun _ _ _ => true) scenarioOpp2 (0, 0, [])
      = (0, 0, []) := by
    rw [procStep, e2, if_neg n2, c2, s2]
    rfl
  have p1 : procStep (1 / 100) LOAN_AMOUNT_FIELD_KEY (fun _ _ _ => true) scenarioOpp1 (0, 0, [])
      = (1, 0, [⟨some ("pip1"), some ("opp1"), 1000⟩]) := by
    rw [procStep, e1, if_neg n1, c1, s1]
    rfl
  rw [scenarioOpps, process_opportunities, process_opportunities, process_opportunities,
    process_opportunities, p3, p2, p1]

/-- Claim C1: the batch pass reconciles each record in order, issues exactly
one write per record wanting an update, silently passes over skipped and
already-correct records, and returns the updated and error counts; on the
three-record scenario at rate 0.01 it returns (1, 0) with exactly one write
of 1000.0 to pipeline pip1, record opp1. -/
theorem process_opportunities_batch_spec (rate : ℚ) (key : String)
    (upd : Option String → Option String → ℚ → Bool) (opps : List Opportunity) :
    ((process_opportunities rate key upd opps).2.2
        = (opps.filter (fun o => wantsWrite rate key o)).map (fun o => plannedCall rate key o)
      ∧ (process_opportunities rate key upd opps).1
        = ((opps.filter (fun o => wantsWrite rate key o)).filter
            (fun o => upd o.pipelineId o.id
              (calculate_commission rate (get_loan_amount key o)))).length
      ∧ (process_opportunities rate key upd opps).2.1
        = ((opps.filter (fun o => wantsWrite rate key o)).filter
            (fun o => !(upd o.pipelineId o.id
              (calculate_commission rate (get_loan_amount key o))))).length)
    ∧ process_opportunities (1 / 100) LOAN_AMOUNT_FIELD_KEY (fun _ _ _ => true) scenarioOpps
        = (1, 0, [⟨some ("pip1"), some ("opp1"), 1000⟩]) := by
  refine ⟨⟨?_, ?_, ?_⟩, scenario_eval⟩ <;> rw [process_opportunities_eq]

/-- Claim C3: a record with no positive resolvable loan amount is never
written: in a batch such a record contributes nothing at any position, and in
single-record mode with no positive override the write trace is empty and
the record reports failure (skip). -/
theorem no_write_without_positive_amount (rate : ℚ) (key oid : String)
    (upd : Option String → Option String → ℚ → Bool)
    (pre post : List Opportunity) (opp : Opportunity) (payload : Value) :
    (get_loan_amount key opp ≤ 0 →
      process_opportunities rate key upd (pre ++ opp :: post)
        = process_opportunities rate key upd (pre ++ post))
    ∧ ((∀ q : ℚ, overrideLoan payload = some q → q ≤ 0) → get_loan_amount key opp ≤ 0 →
        (process_single_opportunity rate key (some opp) upd oid payload).2 = []
        ∧ (process_single_opportunity rate key (some opp) upd oid payload).1.1 = false) := by
  constructor
  · intro h
    induction pre with
    | nil =>
      rw [List.nil_append, List.nil_append, process_opportunities, procStep, if_pos h]
    | cons p rest ih =>
      rw [List.cons_append, List.cons_append, process_opportunities, process_opportunities, ih]
  · intro hov h
    cases hL : overrideLoan payload with
    | none =>
      have hr : resolveLoan key payload opp = none := by
        rw [resolveLoan, hL]
        rfl
      simp [process_single_opportunity, hr]
    | some l0 =>
      have hl0 : l0 ≤ 0 := hov l0 hL
      have hr : resolveLoan key payload opp = some (get_loan_amount key opp) := by
        rw [resolveLoan, hL]
        simp [hl0]
      simp [process_single_opportunity, hr, h]

/-- Witness for C3: a record with no loan field generates no write in either
mode. -/
theorem no_write_without_positive_amount_witness :
    process_opportunities 1 ("k") (fun _ _ _ => true) ([] ++ oppNull :: [])
      = process_opportunities 1 ("k") (fun _ _ _ => true) ([] ++ []) :=
  (no_write_without_positive_amount 1 ("k") ("o") (fun _ _ _ => true)
    [] [] oppNull Value.vnull).1 (by decide)

/-- Claim C5: a supplied override amount that resolves to a positive value is
used as the loan amount with the custom fields never consulted (the result
does not depend on the record); an absent or non-positive override falls back
to field extraction; a truthy override string is parsed under the same
currency-string rules as field extraction; an override of 200000 dollars
beats a record field of 50000. -/
theorem override_precedence (key : String) (opp : Opportunity) (payload : Value) (q : ℚ) :
    (overrideLoan payload = some q → 0 < q → resolveLoan key payload opp = some q)
    ∧ (overrideLoan payload = some q → q ≤ 0 →
        resolveLoan key payload opp = some (get_loan_amount key opp))
    ∧ (payload = Value.vnull → resolveLoan key payload opp = some (get_loan_amount key opp))
    ∧ (∀ s : String, s ≠ "" →
        overrideLoan (Value.vstr s) = some ((pyFloat (cleanCurrency s)).getD 0))
    ∧ resolveLoan LOAN_AMOUNT_FIELD_KEY (Value.vstr ("$200,000")) opp50k = some 200000
    ∧ get_loan_amount LOAN_AMOUNT_FIELD_KEY opp50k = 50000 := by
  have hov : overrideLoan (Value.vstr ("$200,000")) = some 200000 := by
    have ht : truthy (Value.vstr ("$200,000")) = true := by decide
    rw [overrideLoan, ht, if_pos rfl, pyFloat,
      show parseParts (cleanCurrency ("$200,000")).data = some ⟨false, 200000, 0, 0, 0⟩
        from by decide]
    simp [partsToRat]
  refine ⟨?_, ?_, ?_, ?_, ?_, by decide⟩
  · intro h hq
    rw [resolveLoan, h]
    simp [not_le.mpr hq]
  · intro h hq
    rw [resolveLoan, h]
    simp [hq]
  · intro h
    subst h
    rw [resolveLoan, show overrideLoan Value.vnull = some 0 from rfl]
    simp
  · intro s hs
    have ht : truthy (Value.vstr s) = true := by simp [truthy, hs]
    rw [overrideLoan, ht, if_pos rfl]
  · rw [resolveLoan, hov]
    simp [show ¬ ((200000 : ℚ) ≤ 0) from by norm_num]

/-- Witness for C5: a positive numeric override is used regardless of the
record. -/
theorem override_precedence_witness :
    resolveLoan ("k") (Value.vnum 7) oppNull = some 7 :=
  (override_precedence ("k") oppNull (Value.vnum 7) 7).1 (by decide) (by norm_num)

/-- The record as it stands after a successful write-back: the stored
monetary value equals the computed target. -/
def withTarget (rate : ℚ) (key : String) (opp : Opportunity) : Opportunity :=
  { opp with monetaryValue := MonVal.mnum (calculate_commission rate (get_loan_amount key opp)) }

/-- Claim C8: reconciliation is idempotent. Once the stored value equals the
computed target (as after a successful write), should_update is false and
the single-record path confirms the record as already correct without
issuing any write. -/
theorem reconcile_idempotent (rate : ℚ) (key oid : String)
    (upd : Option String → Option String → ℚ → Bool) (opp : Opportunity)
    (h : 0 < get_loan_amount key opp) :
    should_update (withTarget rate key opp)
        (calculate_commission rate (get_loan_amount key opp)) = false
    ∧ process_single_opportunity rate key (some (withTarget rate key opp)) upd oid Value.vnull
      = ((true, "No update needed (Value already correct)."), []) := by
  have hsu : should_update (withTarget rate key opp)
      (calculate_commission rate (get_loan_amount key opp)) = false := by
    refine (Bool.eq_false_iff).mpr ?_
    intro hcon
    have hx := (should_update_iff _ _).mp hcon
    rw [show monCurrent (withTarget rate key opp).monetaryValue
        = calculate_commission rate (get_loan_amount key opp) from rfl,
      sub_self, abs_zero] at hx
    norm_num at hx
  have hgl : get_loan_amount key (withTarget rate key opp) = get_loan_amount key opp := rfl
  have hr : resolveLoan key Value.vnull (withTarget rate key opp)
      = some (get_loan_amount key opp) := by
    rw [resolveLoan, show overrideLoan Value.vnull = some 0 from rfl]
    simp [hgl]
  refine ⟨hsu, ?_⟩
  simp [process_single_opportunity, hr, not_le.mpr h, hsu]

/-- Witness for C8: a record with loan field 100000 whose stored value was
just set to its target is confirmed already correct. -/
theorem reconcile_idempotent_witness :
    process_single_opportunity (1 / 100) LOAN_AMOUNT_FIELD_KEY
      (some (withTarget (1 / 100) LOAN_AMOUNT_FIELD_KEY oppLoan100k))
      (fun _ _ _ => true) ("opp1") Value.vnull
      = ((true, "No update needed (Value already correct)."), []) :=
  (reconcile_idempotent (1 / 100) LOAN_AMOUNT_FIELD_KEY ("opp1")
    (fun _ _ _ => true) oppLoan100k (by decide)).2

/-- Claim C9: single-record processing always returns a (success, message)
pair (the model is total over every input shape, including payloads whose
parse raises and is caught at the outer boundary): not-found, skip, write
failure and caught errors report false with distinguishing messages, and
true is reported only for a confirmed update or a confirmed already-correct
state. -/
theorem process_single_total_outcomes (rate : ℚ) (key oid : String)
    (getOpp : Option Opportunity) (upd : Option String → Option String → ℚ → Bool)
    (payload : Value) :
    (getOpp = none →
      process_single_opportunity rate key getOpp upd oid payload
        = ((false, "Opportunity " ++ oid ++ " not found."), []))
    ∧ ((process_single_opportunity rate key getOpp upd oid payload).1.1 = true →
        (process_single_opportunity rate key getOpp upd oid payload).1.2
            = "Updated successfully."
        ∨ (process_single_opportunity rate key getOpp upd oid payload).1.2
            = "No update needed (Value already correct).")
    ∧ ((process_single_opportunity rate key getOpp upd oid payload).1.1 = false →
        (process_single_opportunity rate key getOpp upd oid payload).1.2
            = "Opportunity " ++ oid ++ " not found."
        ∨ (∃ l : ℚ, (process_single_opportunity rate key getOpp upd oid payload).1.2
            = "Skipped: No valid Loan Amount (Found: " ++ toString l ++ ")")
        ∨ (process_single_opportunity rate key getOpp upd oid payload).1.2
            = "Failed to update API."
        ∨ (process_single_opportunity rate key getOpp upd oid payload).1.2
            = "Error: " ++ typeErrorMsg) := by
  cases getOpp with
  | none =>
    refine ⟨fun _ => rfl, ?_, fun _ => Or.inl rfl⟩
    intro hcon
    simp [process_single_opportunity] at hcon
  | some opp =>
    have master :
        (process_single_opportunity rate key (some opp) upd oid payload).1
            = (false, "Error: " ++ typeErrorMsg)
        ∨ (∃ l : ℚ, (process_single_opportunity rate key (some opp) upd oid payload).1
            = (false, "Skipped: No valid Loan Amount (Found: " ++ toString l ++ ")"))
        ∨ (process_single_opportunity rate key (some opp) upd oid payload).1
            = (true, "Updated successfully.")
        ∨ (process_single_opportunity rate key (some opp) upd oid payload).1
            = (false, "Failed to update API.")
        ∨ (process_single_opportunity rate key (some opp) upd oid payload).1
            = (true, "No update needed (Value already correct).") := by
      cases hr : resolveLoan key payload opp with
      | none => simp [process_single_opportunity, hr]
      | some loan =>
        by_cases hl : loan ≤ 0
        · refine Or.inr (Or.inl ⟨loan, ?_⟩)
          simp [process_single_opportunity, hr, hl]
        · by_cases hsu : should_update opp (calculate_commission rate loan) = true
          · by_cases hu : upd opp.pipelineId oid (calculate_commission rate loan) = true
            · refine Or.inr (Or.inr (Or.inl ?_))
              simp [process_single_opportunity, hr, hl, hsu, hu]
            · refine Or.inr (Or.inr (Or.inr (Or.inl ?_)))
              simp [process_single_opportunity, hr, hl, hsu, hu]
          · refine Or.inr (Or.inr (Or.inr (Or.inr ?_)))
            simp [process_single_opportunity, hr, hl, hsu]
    refine ⟨fun hcon => Option.noConfusion hcon, ?_, ?_⟩
    · intro h
      rcases master with hm | ⟨l, hm⟩ | hm | hm | hm
      · rw [hm] at h
        simp at h
      · rw [hm] at h
        simp at h
      · rw [hm]
        exact Or.inl rfl
      · rw [hm] at h
        simp at h
      · rw [hm]
        exact Or.inr rfl
    · intro h
      rcases master with hm | ⟨l, hm⟩ | hm | hm | hm
      · rw [hm]
        exact Or.inr (Or.inr (Or.inr rfl))
      · rw [hm]
        exact Or.inr (Or.inl ⟨l, rfl⟩)
      · rw [hm] at h
        simp at h
      · rw [hm]
        exact Or.inr (Or.inr (Or.inl rfl))
      · rw [hm] at h
        simp at h

/-- Witness for C9: the not-found case at a concrete identifier. -/
theorem process_single_total_outcomes_witness :
    process_single_opportunity 1 ("k") none (fun _ _ _ => true) ("opp9") Value.vnull
      = ((false, "Opportunity " ++ ("opp9") ++ " not found."), []) :=
  (process_single_total_outcomes 1 ("k") ("opp9") none (fun _ _ _ => true) Value.vnull).1 rfl

/-- Claim C2 evidence: the effective update_opportunity_value of the
application client reports success for a 422 validation rejection (it never
inspects the status code), while the root-level client variant reports
failure there; a transport exception still reports failure in both. -/
theorem update_opportunity_value_ignores_status :
    update_opportunity_value (some { status := 422, body := "Unprocessable Entity" }) = true
    ∧ update_opportunity_value_root (some { status := 422, body := "Unprocessable Entity" }) = false
    ∧ update_opportunity_value none = false := by
  refine ⟨rfl, ?_, rfl⟩
  decide

end CRM
